import Mathlib

/-!
Shallow embedding of the AGS-parsing, multi-file merge, spatial-selection,
section-projection and coordinate-validation logic of the
Borehole_Sections_Streamlit repository, together with theorems settling the
specification claims about that logic.

Conventions used throughout:
* Python floats are modelled as exact rationals; external numeric library
  calls (pyproj transformers, shapely predicates, numpy hypot, sklearn PCA)
  are taken as explicit function parameters of the embedding.
* A Python function that can raise is modelled with an Option/Except result;
  a `none` / `.error` value stands for a raised exception.
* Python dicts built with `dict(zip(..))` are modelled as association lists
  with replace-or-append insertion (`pyDict` below), matching the
  insertion-order semantics of Python dicts.
* Text already split by the external `csv.reader` tokenizer is modelled as a
  list of rows, each row a list of string cells.
-/

namespace BoreholeSections

/-- Model of a Python dict insertion `d[k] = v`: if the key exists its value
is replaced in place, otherwise the pair is appended at the end (Python
dicts preserve insertion order). -/
def dictInsert (d : List (String × String)) (kv : String × String) :
    List (String × String) :=
  if d.any (fun p => p.1 = kv.1) then
    d.map (fun p => if p.1 = kv.1 then (p.1, kv.2) else p)
  else
    d ++ [kv]

/-- Model of Python `dict(pairs)`: pairs inserted sequentially. -/
def pyDict (pairs : List (String × String)) : List (String × String) :=
  pairs.foldl dictInsert []

/-- Model of Python `min(l)` on a nonempty list of floats (the empty case,
which raises ValueError in Python, is guarded at every use site). -/
def pyMin (l : List ℚ) : ℚ :=
  match l with
  | [] => 0
  | x :: xs => xs.foldl min x

/-- Model of Python `max(l)` on a nonempty list of floats. -/
def pyMax (l : List ℚ) : ℚ :=
  match l with
  | [] => 0
  | x :: xs => xs.foldl max x

/-- Model of Python `str.strip()`: drop leading and trailing whitespace. -/
def pyStrip (s : String) : String :=
  String.mk (((s.toList.dropWhile Char.isWhitespace).reverse.dropWhile
    Char.isWhitespace).reverse)

/-- Model of `os.path.splitext(s)[0]` for a bare file name: everything
before the last dot, except that a name whose characters before that dot
are all dots (such as ".ags") is returned whole. -/
def splitextRoot (s : String) : String :=
  let cs := s.toList
  match cs.reverse.findIdx? (fun c => c = '.') with
  | none => s
  | some r =>
    let i := cs.length - 1 - r
    if (cs.take i).all (fun c => c = '.') then s
    else String.mk (cs.take i)

/-- Per-file identifier suffix used by both merge implementations:
`os.path.splitext(name)[0][:19]`. -/
def fileSuffix (name : String) : String :=
  (splitextRoot name).take 19

/-! ## Embedding of `core/ags_parser.py parse_ags_group`

The function scans the `csv.reader` rows once, keeping the current group
flag, the most recent HEADING/UNIT/TYPE metadata and the accumulated DATA
records, and stops at the GROUP row following the target group's block.
-/

/-- Parsed AGS group: mirror of the `AGSGroup` dataclass of
`core/ags_parser.py`. -/
structure AGSGroup where
  name : String
  headings : List String
  units : List (String × String)
  types : List (String × String)
  data : List (List (String × String))
deriving DecidableEq

/-- Scan state of the `parse_ags_group` loop: the `in_group` flag, the
accumulated headings / units / types / data, and whether the loop has hit
the `break` on a second GROUP row. -/
structure ParseState where
  inGroup : Bool
  headings : List String
  units : List (String × String)
  types : List (String × String)
  data : List (List (String × String))
  stopped : Bool
deriving DecidableEq

/-- State at loop entry. -/
def initState : ParseState :=
  { inGroup := false, headings := [], units := [], types := [], data := []
    stopped := false }

/-- Values of one DATA row against the current headings, as built by
`parse_ags_group`: `row[1 : len(headings) + 1]`, right-padded with empty
strings to the headings length, every value stripped. -/
def dataValues (headings row : List String) : List String :=
  let values := (row.drop 1).take headings.length
  let padded := values ++ List.replicate (headings.length - values.length) ""
  padded.map pyStrip

/-- One DATA record: `dict(zip(headings, values))`. -/
def mkDataRow (headings row : List String) : List (String × String) :=
  pyDict (List.zip headings (dataValues headings row))

/-- One iteration of the `parse_ags_group` row loop.  Rows with fewer than
two cells are skipped; a GROUP row while already in the target group stops
the scan (`break`); HEADING/UNIT/TYPE/DATA rows update the state when
inside the target group. -/
def parseStep (groupName : String) (s : ParseState) (row : List String) :
    ParseState :=
  if s.stopped then s
  else
    match row with
    | c0 :: c1 :: _ =>
      if c0 = "GROUP" then
        if s.inGroup then { s with stopped := true }
        else { s with inGroup := c1 = groupName }
      else if s.inGroup then
        if c0 = "HEADING" then
          { s with headings := (row.drop 1).map pyStrip }
        else if c0 = "UNIT" then
          { s with units := pyDict (List.zip s.headings (row.drop 1)) }
        else if c0 = "TYPE" then
          { s with types := pyDict (List.zip s.headings (row.drop 1)) }
        else if c0 = "DATA" then
          { s with data := s.data ++ [mkDataRow s.headings row] }
        else s
      else s
    | _ => s

/-- Embedding of `parse_ags_group` over the `csv.reader` row list: scan all
rows, then return `None` when no headings or no data were collected, or
when some record's size differs from the headings length; otherwise return
the assembled group. -/
def parse_ags_group (rows : List (List String)) (groupName : String) :
    Option AGSGroup :=
  let s := rows.foldl (parseStep groupName) initState
  if s.headings.isEmpty ∨ s.data.isEmpty then none
  else if s.data.any (fun r => r.length ≠ s.headings.length) then none
  else some
    { name := groupName, headings := s.headings, units := s.units
      types := s.types, data := s.data }

/-- First cell of a row that the parser does not skip (rows with fewer than
two cells are skipped). -/
def rowTag (row : List String) : Option String :=
  match row with
  | c0 :: _ :: _ => some c0
  | _ => none

/-- Second cell of a row with at least two cells. -/
def secondCell (row : List String) : Option String :=
  match row with
  | _ :: c1 :: _ => some c1
  | _ => none

/-! ### Association-list lemmas for `pyDict` -/

theorem dictInsert_of_notMem (d : List (String × String)) (kv : String × String)
    (h : ∀ p ∈ d, p.1 ≠ kv.1) : dictInsert d kv = d ++ [kv] := by
  unfold dictInsert
  rw [if_neg]
  simp only [List.any_eq_true, decide_eq_true_eq, not_exists]
  intro p hp
  exact h p hp.1 hp.2

theorem foldl_dictInsert_nodup (pairs : List (String × String)) :
    ∀ acc : List (String × String), (pairs.map Prod.fst).Nodup →
    (∀ p ∈ acc, ∀ q ∈ pairs, p.1 ≠ q.1) →
    pairs.foldl dictInsert acc = acc ++ pairs := by
  induction pairs with
  | nil => intro acc _ _; simp
  | cons kv rest ih =>
    intro acc hnd hdisj
    simp only [List.foldl_cons]
    rw [dictInsert_of_notMem acc kv
      (fun p hp => hdisj p hp kv (List.mem_cons_self kv rest))]
    have hdisj2 : ∀ p ∈ acc ++ [kv], ∀ q ∈ rest, p.1 ≠ q.1 := by
      intro p hp q hq
      rcases List.mem_append.mp hp with hp1 | hp2
      · exact hdisj p hp1 q (List.mem_cons_of_mem _ hq)
      · simp only [List.mem_singleton] at hp2
        subst hp2
        simp only [List.map_cons, List.nodup_cons, List.mem_map] at hnd
        exact fun hc => hnd.1 ⟨q, hq, hc.symm⟩
    rw [ih (acc ++ [kv]) (by simpa using hnd.of_cons) hdisj2]
    simp

/-- A `pyDict` built from pairs with pairwise distinct keys is just the pair
list itself. -/
theorem pyDict_of_nodup (pairs : List (String × String))
    (h : (pairs.map Prod.fst).Nodup) : pyDict pairs = pairs := by
  unfold pyDict
  rw [foldl_dictInsert_nodup pairs [] h (by simp)]
  simp

/-- The values of a DATA row always have exactly the headings length:
longer rows are truncated, shorter rows padded. -/
theorem dataValues_length (headings row : List String) :
    (dataValues headings row).length = headings.length := by
  unfold dataValues
  simp only [List.length_map, List.length_append, List.length_replicate,
    List.length_take]
  omega

/-- With distinct headings, a DATA record is literally the zip of headings
and values. -/
theorem mkDataRow_of_nodup (headings row : List String)
    (h : headings.Nodup) :
    mkDataRow headings row = List.zip headings (dataValues headings row) := by
  unfold mkDataRow
  apply pyDict_of_nodup
  rw [List.map_fst_zip]
  · exact h
  · rw [dataValues_length]

/-- With distinct headings, the key list of every DATA record is exactly the
headings list. -/
theorem mkDataRow_fst (headings row : List String) (h : headings.Nodup) :
    (mkDataRow headings row).map Prod.fst = headings := by
  rw [mkDataRow_of_nodup headings row h, List.map_fst_zip]
  rw [dataValues_length]

theorem mkDataRow_length (headings row : List String) (h : headings.Nodup) :
    (mkDataRow headings row).length = headings.length := by
  have := congrArg List.length (mkDataRow_fst headings row h)
  simpa using this

/-! ### Scan lemmas for `parse_ags_group` -/

theorem parseStep_stopped {g : String} {s : ParseState} (row : List String)
    (h : s.stopped = true) : parseStep g s row = s := by
  simp [parseStep, h]

theorem foldl_parseStep_stopped {g : String} {s : ParseState}
    (rows : List (List String)) (h : s.stopped = true) :
    rows.foldl (parseStep g) s = s := by
  induction rows with
  | nil => rfl
  | cons r rs ih => simp only [List.foldl_cons, parseStep_stopped r h, ih]

/-- Outside the target group, rows that are not a GROUP row for the target
leave the state unchanged. -/
theorem parseStep_out {g : String} {s : ParseState} {row : List String}
    (hin : s.inGroup = false) (hstop : s.stopped = false)
    (hrow : ¬(rowTag row = some "GROUP" ∧ secondCell row = some g)) :
    parseStep g s row = s := by
  obtain ⟨ing, hds, us, ts, ds, st⟩ := s
  simp only at hin hstop
  subst hin hstop
  rcases row with _ | ⟨c0, _ | ⟨c1, rest⟩⟩
  · simp [parseStep]
  · simp [parseStep]
  · simp only [rowTag, secondCell, Option.some.injEq] at hrow
    by_cases hc0 : c0 = "GROUP"
    · subst hc0
      have hc1 : ¬(c1 = g) := fun hc => hrow ⟨rfl, hc⟩
      simp [parseStep, hc1]
    · simp [parseStep, hc0]

theorem foldl_parseStep_out {g : String} {s : ParseState}
    (rows : List (List String))
    (hin : s.inGroup = false) (hstop : s.stopped = false)
    (hrows : ∀ r ∈ rows, ¬(rowTag r = some "GROUP" ∧ secondCell r = some g)) :
    rows.foldl (parseStep g) s = s := by
  induction rows with
  | nil => rfl
  | cons r rs ih =>
    simp only [List.foldl_cons]
    rw [parseStep_out hin hstop (hrows r (List.mem_cons_self r rs))]
    exact ih (fun r hr => hrows r (List.mem_cons_of_mem _ hr))

/-- Entering the target group. -/
theorem parseStep_enter {g : String} {s : ParseState} (gtail : List String)
    (hin : s.inGroup = false) (hstop : s.stopped = false) :
    parseStep g s ("GROUP" :: g :: gtail) = { s with inGroup := true } := by
  simp [parseStep, hstop, hin]

/-- Inside the target group with empty headings, units and types, any row
that is not a GROUP, HEADING or DATA row leaves the state unchanged (UNIT
and TYPE rows zip against the empty headings and store the empty dict). -/
theorem parseStep_mid {g : String}
    {dat : List (List (String × String))} {row : List String}
    (hrow : rowTag row ≠ some "GROUP" ∧ rowTag row ≠ some "HEADING" ∧
      rowTag row ≠ some "DATA") :
    parseStep g ⟨true, [], [], [], dat, false⟩ row =
      ⟨true, [], [], [], dat, false⟩ := by
  rcases row with _ | ⟨c0, _ | ⟨c1, rest⟩⟩
  · simp [parseStep]
  · simp [parseStep]
  · obtain ⟨h1, h2, h3⟩ := hrow
    simp only [rowTag, ne_eq, Option.some.injEq] at h1 h2 h3
    by_cases hu : c0 = "UNIT"
    · subst hu; simp [parseStep, pyDict]
    · by_cases ht : c0 = "TYPE"
      · subst ht; simp [parseStep, pyDict]
      · simp [parseStep, h1, h2, h3, hu, ht]

theorem foldl_parseStep_mid {g : String}
    {dat : List (List (String × String))} (mid : List (List String))
    (hmid : ∀ r ∈ mid, rowTag r ≠ some "GROUP" ∧ rowTag r ≠ some "HEADING" ∧
      rowTag r ≠ some "DATA") :
    mid.foldl (parseStep g) ⟨true, [], [], [], dat, false⟩ =
      ⟨true, [], [], [], dat, false⟩ := by
  induction mid with
  | nil => rfl
  | cons r rs ih =>
    simp only [List.foldl_cons]
    rw [parseStep_mid (hmid r (List.mem_cons_self r rs))]
    exact ih (fun r hr => hmid r (List.mem_cons_of_mem _ hr))

/-- A HEADING row with at least one column name installs the stripped
headings. -/
theorem parseStep_heading {g : String} {s : ParseState} (h0 : String)
    (hrest : List String) (hin : s.inGroup = true) (hstop : s.stopped = false) :
    parseStep g s ("HEADING" :: h0 :: hrest) =
      { s with headings := (h0 :: hrest).map pyStrip } := by
  simp [parseStep, hin, hstop]

/-- Folding the body rows of the target group (no GROUP or HEADING rows)
appends one record per DATA row, leaving headings untouched; units and
types end in some state that the claim does not constrain. -/
theorem foldl_parseStep_body {g : String} (hds : List String)
    (body : List (List String))
    (hbody : ∀ r ∈ body, rowTag r ≠ some "GROUP" ∧ rowTag r ≠ some "HEADING") :
    ∀ us ts dat, ∃ us2 ts2,
      body.foldl (parseStep g) ⟨true, hds, us, ts, dat, false⟩ =
        ⟨true, hds, us2, ts2,
          dat ++ (body.filter (fun r => rowTag r == some "DATA")).map
            (mkDataRow hds), false⟩ := by
  induction body with
  | nil => intro us ts dat; exact ⟨us, ts, by simp⟩
  | cons r rs ih =>
    intro us ts dat
    have hr := hbody r (List.mem_cons_self r rs)
    have hrs : ∀ x ∈ rs, rowTag x ≠ some "GROUP" ∧ rowTag x ≠ some "HEADING" :=
      fun x hx => hbody x (List.mem_cons_of_mem _ hx)
    rcases r with _ | ⟨c0, _ | ⟨c1, rest⟩⟩
    · obtain ⟨us2, ts2, hfold⟩ := ih hrs us ts dat
      exact ⟨us2, ts2, by simpa [parseStep, rowTag] using hfold⟩
    · obtain ⟨us2, ts2, hfold⟩ := ih hrs us ts dat
      exact ⟨us2, ts2, by simpa [parseStep, rowTag] using hfold⟩
    · obtain ⟨h1, h2⟩ := hr
      simp only [rowTag, ne_eq, Option.some.injEq] at h1 h2
      by_cases hu : c0 = "UNIT"
      · subst hu
        obtain ⟨us2, ts2, hfold⟩ :=
          ih hrs (pyDict (List.zip hds (c1 :: rest))) ts dat
        refine ⟨us2, ts2, ?_⟩
        simpa [parseStep, rowTag] using hfold
      · by_cases ht : c0 = "TYPE"
        · subst ht
          obtain ⟨us2, ts2, hfold⟩ :=
            ih hrs us (pyDict (List.zip hds (c1 :: rest))) dat
          refine ⟨us2, ts2, ?_⟩
          simpa [parseStep, rowTag] using hfold
        · by_cases hd : c0 = "DATA"
          · subst hd
            obtain ⟨us2, ts2, hfold⟩ :=
              ih hrs us ts (dat ++ [mkDataRow hds ("DATA" :: c1 :: rest)])
            refine ⟨us2, ts2, ?_⟩
            simp only [List.foldl_cons]
            rw [show parseStep g ⟨true, hds, us, ts, dat, false⟩
                ("DATA" :: c1 :: rest) =
                ⟨true, hds, us, ts,
                  dat ++ [mkDataRow hds ("DATA" :: c1 :: rest)], false⟩ by
              simp [parseStep]]
            rw [hfold]
            simp [rowTag]
          · obtain ⟨us2, ts2, hfold⟩ := ih hrs us ts dat
            refine ⟨us2, ts2, ?_⟩
            simpa [parseStep, rowTag, h1, h2, hu, ht, hd] using hfold

/-- A GROUP row hit while inside the target group stops the scan. -/
theorem parseStep_break {g : String} {s : ParseState} {row : List String}
    (hin : s.inGroup = true) (hstop : s.stopped = false)
    (hrow : rowTag row = some "GROUP") :
    parseStep g s row = { s with stopped := true } := by
  rcases row with _ | ⟨c0, _ | ⟨c1, rest⟩⟩
  · simp [rowTag] at hrow
  · simp [rowTag] at hrow
  · simp only [rowTag, Option.some.injEq] at hrow
    subst hrow
    simp [parseStep, hin, hstop]

/-- Longer DATA rows are truncated to the headings length (and stripped). -/
theorem dataValues_truncate (hds row : List String)
    (h : hds.length ≤ (row.drop 1).length) :
    dataValues hds row =
      ((row.drop 1).take hds.length).map pyStrip := by
  have hlen : ((row.drop 1).take hds.length).length = hds.length := by
    simp only [List.length_take]
    omega
  simp only [dataValues, hlen, Nat.sub_self, List.replicate_zero,
    List.append_nil]

/-- Shorter DATA rows are right-padded with empty strings up to the headings
length. -/
theorem dataValues_pad (hds row : List String)
    (h : (row.drop 1).length < hds.length) :
    dataValues hds row =
      (row.drop 1).map pyStrip ++
        List.replicate (hds.length - (row.drop 1).length) "" := by
  unfold dataValues
  have htake : (row.drop 1).take hds.length = row.drop 1 :=
    List.take_of_length_le (le_of_lt h)
  rw [htake]
  rw [List.map_append, List.map_replicate]
  have : pyStrip "" = "" := by decide
  rw [this]

/-- Read the result of `parse_ags_group` off the final scan state. -/
theorem parse_of_scan (rows : List (List String)) (g : String)
    (st : ParseState)
    (hscan : rows.foldl (parseStep g) initState = st)
    (hhd : st.headings ≠ []) (hdat : st.data ≠ [])
    (hlen : ∀ r ∈ st.data, r.length = st.headings.length) :
    parse_ags_group rows g =
      some ⟨g, st.headings, st.units, st.types, st.data⟩ := by
  simp only [parse_ags_group]
  rw [hscan]
  rw [if_neg (by simp [List.isEmpty_iff, hhd, hdat])]
  rw [if_neg ?hc]
  case hc =>
    simp only [List.any_eq_true, decide_eq_true_eq, not_exists]
    intro r hr
    exact hr.2 (hlen r hr.1)

/-- C2: for every AGS text containing a GROUP row for the target group
followed by a HEADING row (with unique stripped column names, per the
GroupTable invariant) and at least one DATA row, `parse_ags_group` returns
a group whose every record's key list is exactly the declared headings; a
DATA row with more value cells than headings is silently truncated to the
headings length, one with fewer cells is right-padded with empty strings,
and the parse returns a group (it never raises) despite such length
mismatches. -/
theorem claim_C2_parse_group_keys
    (pre mid body rest : List (List String)) (g : String)
    (gtail hs : List String)
    (hpre : ∀ r ∈ pre, ¬(rowTag r = some "GROUP" ∧ secondCell r = some g))
    (hmid : ∀ r ∈ mid, rowTag r ≠ some "GROUP" ∧ rowTag r ≠ some "HEADING" ∧
      rowTag r ≠ some "DATA")
    (hbody : ∀ r ∈ body, rowTag r ≠ some "GROUP" ∧ rowTag r ≠ some "HEADING")
    (hrest : rest = [] ∨ ∃ r0 rs0, rest = r0 :: rs0 ∧ rowTag r0 = some "GROUP")
    (hhs : hs ≠ [])
    (hnodup : (hs.map pyStrip).Nodup)
    (hdata : ∃ r ∈ body, rowTag r = some "DATA") :
    ∃ us ts,
      parse_ags_group
        (pre ++ (("GROUP" :: g :: gtail) :: mid) ++
          (("HEADING" :: hs) :: body) ++ rest) g
        = some ⟨g, hs.map pyStrip, us, ts,
            (body.filter (fun r => rowTag r == some "DATA")).map
              (mkDataRow (hs.map pyStrip))⟩
      ∧ (∀ rec ∈ (body.filter (fun r => rowTag r == some "DATA")).map
            (mkDataRow (hs.map pyStrip)),
          rec.map Prod.fst = hs.map pyStrip)
      ∧ (∀ row : List String,
          (hs.map pyStrip).length ≤ (row.drop 1).length →
          dataValues (hs.map pyStrip) row =
            ((row.drop 1).take (hs.map pyStrip).length).map pyStrip)
      ∧ (∀ row : List String,
          (row.drop 1).length < (hs.map pyStrip).length →
          dataValues (hs.map pyStrip) row =
            (row.drop 1).map pyStrip ++
              List.replicate ((hs.map pyStrip).length - (row.drop 1).length) "") := by
  obtain ⟨h0, ht, rfl⟩ : ∃ h0 ht, hs = h0 :: ht := by
    cases hs with
    | nil => exact absurd rfl hhs
    | cons a b => exact ⟨a, b, rfl⟩
  obtain ⟨us, ts, hbodyfold⟩ := @foldl_parseStep_body g
    ((h0 :: ht).map pyStrip) body hbody [] [] []
  have s1 : pre.foldl (parseStep g) initState = initState :=
    foldl_parseStep_out pre rfl rfl hpre
  have s2 : (("GROUP" :: g :: gtail) :: mid).foldl (parseStep g) initState =
      ⟨true, [], [], [], [], false⟩ := by
    rw [List.foldl_cons, parseStep_enter gtail rfl rfl]
    exact foldl_parseStep_mid mid hmid
  have s3 : parseStep g ⟨true, [], [], [], [], false⟩ ("HEADING" :: h0 :: ht) =
      ⟨true, (h0 :: ht).map pyStrip, [], [], [], false⟩ := by
    rw [parseStep_heading h0 ht rfl rfl]
  -- scan state after the whole row list
  have hfold : (pre ++ (("GROUP" :: g :: gtail) :: mid) ++
      (("HEADING" :: h0 :: ht) :: body) ++ rest).foldl (parseStep g) initState
      = rest.foldl (parseStep g)
          ⟨true, (h0 :: ht).map pyStrip, us, ts,
            (body.filter (fun r => rowTag r == some "DATA")).map
              (mkDataRow ((h0 :: ht).map pyStrip)), false⟩ := by
    simp only [List.foldl_append]
    rw [s1, s2, List.foldl_cons, s3]
    rw [show ([] : List (List (String × String))) ++
      (body.filter (fun r => rowTag r == some "DATA")).map
        (mkDataRow ((h0 :: ht).map pyStrip)) =
      (body.filter (fun r => rowTag r == some "DATA")).map
        (mkDataRow ((h0 :: ht).map pyStrip)) from List.nil_append _] at hbodyfold
    rw [hbodyfold]
  have hrecs_ne :
      (body.filter (fun r => rowTag r == some "DATA")).map
        (mkDataRow ((h0 :: ht).map pyStrip)) ≠ [] := by
    obtain ⟨r, hrmem, hrtag⟩ := hdata
    have : r ∈ body.filter (fun r => rowTag r == some "DATA") :=
      List.mem_filter.mpr ⟨hrmem, by simp [hrtag]⟩
    exact List.ne_nil_of_mem (List.mem_map_of_mem _ this)
  have hlenrec : ∀ rec ∈ (body.filter (fun r => rowTag r == some "DATA")).map
      (mkDataRow ((h0 :: ht).map pyStrip)),
      rec.length = ((h0 :: ht).map pyStrip).length := by
    intro rec hrec
    obtain ⟨r, _, rfl⟩ := List.mem_map.mp hrec
    exact mkDataRow_length _ r hnodup
  have hkeys : ∀ rec ∈ (body.filter (fun r => rowTag r == some "DATA")).map
      (mkDataRow ((h0 :: ht).map pyStrip)),
      rec.map Prod.fst = (h0 :: ht).map pyStrip := by
    intro rec hrec
    obtain ⟨r, _, rfl⟩ := List.mem_map.mp hrec
    exact mkDataRow_fst _ r hnodup
  rcases hrest with rfl | ⟨r0, rs0, rfl, hr0⟩
  · refine ⟨us, ts, ?_, hkeys, ?_, ?_⟩
    · refine parse_of_scan _ g
        ⟨true, (h0 :: ht).map pyStrip, us, ts,
          (body.filter (fun r => rowTag r == some "DATA")).map
            (mkDataRow ((h0 :: ht).map pyStrip)), false⟩ ?_ (by simp) hrecs_ne
        hlenrec
      exact hfold
    · intro row hrow; exact dataValues_truncate _ row hrow
    · intro row hrow; exact dataValues_pad _ row hrow
  · refine ⟨us, ts, ?_, hkeys, ?_, ?_⟩
    · refine parse_of_scan _ g
        ⟨true, (h0 :: ht).map pyStrip, us, ts,
          (body.filter (fun r => rowTag r == some "DATA")).map
            (mkDataRow ((h0 :: ht).map pyStrip)), true⟩ ?_ (by simp) hrecs_ne
        hlenrec
      rw [hfold, List.foldl_cons, parseStep_break rfl rfl hr0]
      exact foldl_parseStep_stopped rs0 rfl
    · intro row hrow; exact dataValues_truncate _ row hrow
    · intro row hrow; exact dataValues_pad _ row hrow

/-- Concrete DATA rows used by the C2 witness: one row longer than the
headings, one shorter. -/
def c2Body : List (List String) :=
  [["DATA", "BH1", "1.0", "extra"], ["DATA", "BH2"]]

/-- Concrete stripped headings used by the C2 witness. -/
def c2Heads : List String := ["LOCA_ID", "LOCA_NATE"].map pyStrip

/-- Witness for C2 at a concrete two-column, two-data-row LOCA block. -/
theorem claim_C2_parse_group_keys_witness :
    c2Heads.Nodup ∧
    (∃ r ∈ c2Body, rowTag r = some "DATA") ∧
    (∃ us ts,
      parse_ags_group
        ([] ++ (("GROUP" :: "LOCA" :: []) :: []) ++
          (("HEADING" :: ["LOCA_ID", "LOCA_NATE"]) :: c2Body) ++ []) "LOCA"
        = some ⟨"LOCA", c2Heads, us, ts,
            (c2Body.filter (fun r => rowTag r == some "DATA")).map
              (mkDataRow c2Heads)⟩
      ∧ (∀ rec ∈ (c2Body.filter (fun r => rowTag r == some "DATA")).map
            (mkDataRow c2Heads),
          rec.map Prod.fst = c2Heads)
      ∧ (∀ row : List String,
          c2Heads.length ≤ (row.drop 1).length →
          dataValues c2Heads row =
            ((row.drop 1).take c2Heads.length).map pyStrip)
      ∧ (∀ row : List String,
          (row.drop 1).length < c2Heads.length →
          dataValues c2Heads row =
            (row.drop 1).map pyStrip ++
              List.replicate (c2Heads.length - (row.drop 1).length) "")) :=
  ⟨by decide, by decide,
    claim_C2_parse_group_keys [] [] c2Body [] "LOCA" []
      ["LOCA_ID", "LOCA_NATE"]
      (by decide) (by decide) (by decide) (Or.inl rfl)
      (by decide) (by decide) (by decide)⟩

/-- C6 counterexample: a target group with a HEADING row but zero DATA rows
makes `parse_ags_group` return `None` (absent), not an empty GroupTable as
the claim states — `if not headings or not data: return None` treats the
two cases alike. -/
theorem claim_C6_counterexample :
    parse_ags_group [["GROUP", "LOCA"], ["HEADING", "LOCA_ID"]] "LOCA" =
      none := by
  decide

/-- C6 amended: a group with headings but zero data rows yields `None`,
exactly like a group that was not found; every GroupTable actually returned
has nonempty headings and at least one record. -/
theorem claim_C6_headings_no_data (rows : List (List String)) (g : String)
    (grp : AGSGroup) (h : parse_ags_group rows g = some grp) :
    grp.headings ≠ [] ∧ grp.data ≠ [] := by
  simp only [parse_ags_group] at h
  by_cases h1 : (rows.foldl (parseStep g) initState).headings.isEmpty ∨
      (rows.foldl (parseStep g) initState).data.isEmpty
  · rw [if_pos h1] at h; cases h
  · rw [if_neg h1] at h
    by_cases h2 : (rows.foldl (parseStep g) initState).data.any
        (fun r => r.length ≠ (rows.foldl (parseStep g) initState).headings.length)
    · rw [if_pos h2] at h; cases h
    · rw [if_neg h2] at h
      obtain rfl := (Option.some.inj h).symm
      push_neg at h1
      simpa [List.isEmpty_iff] using h1

/-- Witness for the amended C6 theorem at a one-row group. -/
theorem claim_C6_headings_no_data_witness :
    parse_ags_group [["GROUP", "X"], ["HEADING", "A"], ["DATA", "v"]] "X" =
      some ⟨"X", ["A"], [], [], [[("A", "v")]]⟩ ∧
    (["A"] : List String) ≠ [] ∧
    ([[("A", "v")]] : List (List (String × String))) ≠ [] :=
  ⟨by decide,
    claim_C6_headings_no_data [["GROUP", "X"], ["HEADING", "A"], ["DATA", "v"]]
      "X" ⟨"X", ["A"], [], [], [[("A", "v")]]⟩ (by decide)⟩

/-! ## Embedding of the multi-file merge of `core/ags_parser.py`
(`parse_multiple_ags_files` / `parse_ags_files`)

The embedding starts from the per-file outputs of `parse_ags_file` (one
table per group, absent groups modelled as empty tables), since everything
upstream is covered by the `parse_ags_group` embedding above.  The external
OSGB36→WGS84 transformer is a function parameter `latlon`; `none` models a
raised conversion exception for that row.  Only the columns the claims
mention are materialized on LOCA rows.
-/

/-- One LOCA row as carried through the merge: identifier, pre-rename
identifier, coerced easting/northing and converted latitude/longitude
(`none` = pandas NA). -/
structure MLoca where
  locaId : String
  originalLocaId : String
  nate : Option ℚ
  natn : Option ℚ
  lat : Option ℚ
  lon : Option ℚ
deriving DecidableEq

/-- Per-file parse result consumed by the merge loop.  `hasCoordCols`
mirrors the `all(col in df.columns for col in coord_cols)` check. -/
structure FileData where
  name : String
  geol : List (List (String × String))
  loca : List MLoca
  abbr : List (List (String × String))
  hasCoordCols : Bool
deriving DecidableEq

/-- Embedding of `convert_coordinates`: coerce/clean easting and northing,
drop rows where either is missing, then convert each remaining row with the
external transformer; a row whose conversion raises keeps NA lat/lon but is
retained. -/
def convert_coordinates (latlon : ℚ → ℚ → Option (ℚ × ℚ))
    (rows : List MLoca) : List MLoca :=
  let cleaned := rows.filter (fun r => r.nate.isSome && r.natn.isSome)
  cleaned.map (fun r =>
    match r.nate, r.natn with
    | some e, some n =>
      match latlon e n with
      | some p => { r with lat := some p.1, lon := some p.2 }
      | none => r
    | _, _ => r)

/-- The three combined tables built by the merge loop. -/
structure Combined where
  geol : List (List (String × String))
  loca : List MLoca
  abbr : List (List (String × String))
deriving DecidableEq

/-- Merge-loop state: combined tables plus the accumulated `existing_ids`
set (a list; only membership is used). -/
structure MergeState where
  combined : Combined
  existingIds : List String
deriving DecidableEq

/-- One iteration of the merge loop over one file's results, for the three
groups GEOL, LOCA, ABBR in that order.  `suffix` is the identifier suffix —
in the source it is computed from `files[0].name` (the first uploaded
file), so the caller passes one constant suffix for every file. -/
def mergeFileStep (latlon : ℚ → ℚ → Option (ℚ × ℚ)) (suffix : String)
    (st : MergeState) (f : FileData) : MergeState :=
  let st1 : MergeState :=
    { st with combined := { st.combined with geol := st.combined.geol ++ f.geol } }
  let st2 : MergeState :=
    if f.loca.isEmpty then st1
    else
      let df := if f.hasCoordCols then convert_coordinates latlon f.loca
                else f.loca
      let df2 := df.map (fun r =>
        { r with
          originalLocaId := r.locaId
          locaId := if r.locaId ∈ st1.existingIds then r.locaId ++ "_" ++ suffix
                    else r.locaId })
      { combined := { st1.combined with loca := st1.combined.loca ++ df2 }
        existingIds := st1.existingIds ++ df2.map (fun r => r.locaId) }
  { st2 with combined := { st2.combined with abbr := st2.combined.abbr ++ f.abbr } }

/-- The combine stage of `parse_multiple_ags_files` (everything before the
`No valid GEOL or LOCA data` validation).  The suffix is derived from the
FIRST file's name (`files[0].name`) for every file. -/
def combinedTables (latlon : ℚ → ℚ → Option (ℚ × ℚ))
    (files : List FileData) : Combined :=
  let suffix := fileSuffix ((files.headD ⟨"", [], [], [], false⟩).name)
  (files.foldl (mergeFileStep latlon suffix) ⟨⟨[], [], []⟩, []⟩).combined

/-- The message of the ValueError raised when the combined data is not
usable. -/
def noValidDataMsg : String := "No valid GEOL or LOCA data found in files"

/-- Embedding of `parse_multiple_ags_files` from the per-file results on:
combine, then raise `NoValidData` when the combined GEOL table is empty or
the combined LOCA table is empty. -/
def parse_multiple_ags_files (latlon : ℚ → ℚ → Option (ℚ × ℚ))
    (files : List FileData) : Except String Combined :=
  let c := combinedTables latlon files
  if c.geol.isEmpty ∨ c.loca.isEmpty then .error noValidDataMsg
  else .ok c

/-- Embedding of the `parse_ags_files` wrapper: `None` for no files, and
every exception from the merge is caught and surfaced as `None`. -/
def parse_ags_files (latlon : ℚ → ℚ → Option (ℚ × ℚ))
    (files : List FileData) : Option Combined :=
  if files.isEmpty then none
  else
    match parse_multiple_ags_files latlon files with
    | .ok c => some c
    | .error _ => none

/-! ## Embedding of `data_loader.py` (`parse_group` / `load_all_loca_data`)

This is the merge path the application (`app.py`) actually uses.  Its
`parse_group` differs from `core/ags_parser.py`: no stripping, no skipping
of short rows, no padding (short rows become NaN-padded by the DataFrame
constructor, modelled as absent cells), and re-entering a GROUP row for the
same target name keeps accumulating instead of stopping.
-/

/-- Scan state of the `data_loader.parse_group` loop. -/
structure DLState where
  inGroup : Bool
  headings : List String
  data : List (List String)
  stopped : Bool
deriving DecidableEq

/-- One iteration of the `data_loader.parse_group` row loop. -/
def dlStep (g : String) (s : DLState) (row : List String) : DLState :=
  if s.stopped then s
  else
    match row with
    | [] => s
    | c0 :: rest =>
      if c0 = "GROUP" then
        match rest with
        | c1 :: _ =>
          if c1 = g then { s with inGroup := true }
          else if s.inGroup then { s with stopped := true }
          else s
        | [] => if s.inGroup then { s with stopped := true } else s
      else if s.inGroup then
        if c0 = "HEADING" then { s with headings := rest }
        else if c0 = "DATA" then
          { s with data := s.data ++ [rest.take s.headings.length] }
        else s
      else s

/-- Embedding of `data_loader.parse_group`: headings and truncated data
rows of the target group. -/
def dl_parse_group (rows : List (List String)) (g : String) :
    List String × List (List String) :=
  let s := rows.foldl (dlStep g) ⟨false, [], [], false⟩
  (s.headings, s.data)

/-- DataFrame cell access by column name: the value at the column's
position, or NA when the (short, NaN-padded) row has no such cell. -/
def dlCell (hs row : List String) (c : String) : Option String :=
  (hs.findIdx? (fun h => h == c)).bind (fun i => row.get? i)

/-- One row of the merged location table of `load_all_loca_data`.  The
identifier is optional because a NaN-padded LOCA_ID cell stays NA through
the rename. -/
structure LocaOut where
  locaId : Option String
  originalLocaId : Option String
  nate : Option ℚ
  natn : Option ℚ
  agsFile : String
deriving DecidableEq

/-- Per-file stage of `load_all_loca_data`: parse the LOCA group, coerce
easting/northing with the external `pd.to_numeric` (parameter `toNum`),
drop rows where either is NA (`dropna(subset=...)` raises KeyError — here
`none` — when a subset column is absent, as does the later `LOCA_ID`
access), then resolve identifier collisions with this file's own suffix
and extend the accumulated identifier set. -/
def dlProcessFile (toNum : String → Option ℚ) (existing : List String)
    (fname : String) (content : List (List String)) :
    Option (List LocaOut × List String) :=
  let p := dl_parse_group content "LOCA"
  let hs := p.1
  if ¬ (hs.contains "LOCA_NATE" ∧ hs.contains "LOCA_NATN") then none
  else if ¬ hs.contains "LOCA_ID" then none
  else
    let kept := p.2.filter (fun row =>
      ((dlCell hs row "LOCA_NATE").bind toNum).isSome &&
      ((dlCell hs row "LOCA_NATN").bind toNum).isSome)
    let suffix := fileSuffix fname
    let outRows := kept.map (fun row =>
      let origId := dlCell hs row "LOCA_ID"
      { locaId :=
          match origId with
          | some x => some (if x ∈ existing then x ++ "_" ++ suffix else x)
          | none => none
        originalLocaId := origId
        nate := (dlCell hs row "LOCA_NATE").bind toNum
        natn := (dlCell hs row "LOCA_NATN").bind toNum
        agsFile := fname })
    some (outRows, existing ++ outRows.filterMap (fun r => r.locaId))

/-- One step of the `load_all_loca_data` file loop, on an accumulator of
(rows so far, identifier set so far); a raised exception (`none`)
propagates. -/
def dlFoldStep (toNum : String → Option ℚ)
    (acc : Option (List LocaOut × List String))
    (f : String × List (List String)) : Option (List LocaOut × List String) :=
  acc.bind (fun st =>
    (dlProcessFile toNum st.2 f.1 f.2).map (fun q => (st.1 ++ q.1, q.2)))

/-- Embedding of `load_all_loca_data`: process files in upload order,
threading the accumulated identifier set, and concatenate the per-file
tables (`pd.concat` on an empty list raises, hence `none` for no files). -/
def load_all_loca_data (toNum : String → Option ℚ)
    (files : List (String × List (List String))) : Option (List LocaOut) :=
  if files.isEmpty then none
  else
    (files.foldl (dlFoldStep toNum)
      (some (([] : List LocaOut), ([] : List String)))).map (fun st => st.1)

/-! ### Claims C1, C3, C9 -/

/-- Two single-borehole files, both containing `LOCA_ID = "BH1"`, as
consumed by the core merge. -/
def c1FileA : FileData :=
  { name := "A.ags", geol := [[("GEOL_LEG", "X")]]
    loca := [{ locaId := "BH1", originalLocaId := "", nate := some 1
               natn := some 2, lat := none, lon := none }]
    abbr := [], hasCoordCols := true }

/-- Second uploaded file with the colliding identifier. -/
def c1FileB : FileData :=
  { name := "B.ags", geol := [[("GEOL_LEG", "Y")]]
    loca := [{ locaId := "BH1", originalLocaId := "", nate := some 3
               natn := some 4, lat := none, lon := none }]
    abbr := [], hasCoordCols := true }

/-- Numeric coercion used by the concrete evaluations: parses the digit
strings occurring in the test data. -/
def c1ToNum : String → Option ℚ := fun s =>
  if s = "1" then some 1
  else if s = "2" then some 2
  else if s = "3" then some 3
  else if s = "4" then some 4
  else none

/-- AGS rows of the first file for the `data_loader` path. -/
def c1ContentA : List (List String) :=
  [["GROUP", "LOCA"], ["HEADING", "LOCA_ID", "LOCA_NATE", "LOCA_NATN"],
   ["DATA", "BH1", "1", "2"]]

/-- AGS rows of the second file for the `data_loader` path. -/
def c1ContentB : List (List String) :=
  [["GROUP", "LOCA"], ["HEADING", "LOCA_ID", "LOCA_NATE", "LOCA_NATN"],
   ["DATA", "BH1", "3", "4"]]

/-- C1: evaluation of both merge implementations on two files "A.ags" and
"B.ags" that both contain `locaId = "BH1"`.  `data_loader.load_all_loca_data`
derives the suffix from each file's own name, yielding `BH1` and `BH1_B`
as the claim states; but `core/ags_parser.parse_multiple_ags_files` derives
the suffix from `files[0].name` — the first file — for every file, yielding
`BH1` and `BH1_A`, contradicting the claim (and defeating uniqueness for
three or more colliding files). -/
theorem claim_C1_merge_suffix_eval :
    ((combinedTables (fun _ _ => none) [c1FileA, c1FileB]).loca.map
        (fun r => (r.locaId, r.originalLocaId))
      = [("BH1", "BH1"), ("BH1_A", "BH1")])
    ∧ ((load_all_loca_data c1ToNum
          [("A.ags", c1ContentA), ("B.ags", c1ContentB)]).map
        (fun rows => rows.map (fun r => (r.locaId, r.originalLocaId)))
      = some [(some "BH1", some "BH1"), (some "BH1_B", some "BH1")]) := by
  decide

/-- C3 counterexample: one file whose GEOL table is empty but whose LOCA
table is not.  The merge raises `NoValidData` although the two tables are
not both empty — the code tests `GEOL empty OR LOCA empty`, not AND. -/
theorem claim_C3_counterexample :
    parse_multiple_ags_files (fun _ _ => none)
      [{ name := "a.ags", geol := []
         loca := [{ locaId := "BH1", originalLocaId := "", nate := some 1
                    natn := some 2, lat := none, lon := none }]
         abbr := [], hasCoordCols := true }]
      = .error noValidDataMsg
    ∧ (combinedTables (fun _ _ => none)
        [{ name := "a.ags", geol := []
           loca := [{ locaId := "BH1", originalLocaId := "", nate := some 1
                      natn := some 2, lat := none, lon := none }]
           abbr := [], hasCoordCols := true }]).loca ≠ [] :=
  ⟨by rfl, by decide⟩

/-- C3 amended: the merge fails with the `NoValidData` condition exactly
when, after merging, the GEOL table is empty OR the LOCA table is empty
(a missing ABBR table never matters), and `parse_ags_files` surfaces that
failure to the caller as `None` instead of raising. -/
theorem claim_C3_no_valid_data (latlon : ℚ → ℚ → Option (ℚ × ℚ))
    (files : List FileData) :
    (parse_multiple_ags_files latlon files = .error noValidDataMsg ↔
      (combinedTables latlon files).geol = [] ∨
        (combinedTables latlon files).loca = [])
    ∧ (parse_ags_files latlon files = none ↔
      files = [] ∨ (combinedTables latlon files).geol = [] ∨
        (combinedTables latlon files).loca = []) := by
  have hmain : parse_multiple_ags_files latlon files = .error noValidDataMsg ↔
      (combinedTables latlon files).geol = [] ∨
        (combinedTables latlon files).loca = [] := by
    simp only [parse_multiple_ags_files]
    by_cases h : (combinedTables latlon files).geol.isEmpty ∨
        (combinedTables latlon files).loca.isEmpty
    · rw [if_pos h]
      simpa [List.isEmpty_iff] using h
    · rw [if_neg h]
      simp only [List.isEmpty_iff] at h
      push_neg at h
      simp [h.1, h.2]
  refine ⟨hmain, ?_⟩
  simp only [parse_ags_files]
  by_cases hf : files.isEmpty
  · rw [if_pos hf]
    simp only [List.isEmpty_iff] at hf
    simp [hf]
  · rw [if_neg hf]
    simp only [List.isEmpty_iff] at hf
    by_cases h : (combinedTables latlon files).geol = [] ∨
        (combinedTables latlon files).loca = []
    · rw [hmain.mpr h]
      simp [hf, h]
    · have hok : parse_multiple_ags_files latlon files =
          .ok (combinedTables latlon files) := by
        simp only [parse_multiple_ags_files]
        rw [if_neg]
        simp only [List.isEmpty_iff]
        push_neg at h ⊢
        exact h
      rw [hok]
      simp [hf, h]

/-- Exception propagation through the `load_all_loca_data` loop. -/
theorem dlFold_none (toNum : String → Option ℚ)
    (files : List (String × List (List String))) :
    files.foldl (dlFoldStep toNum) none = none := by
  induction files with
  | nil => rfl
  | cons f fs ih => simpa [dlFoldStep] using ih

/-- Every row produced by one per-file stage carries numeric easting and
northing: the stage filters on exactly that before building its rows. -/
theorem dlProcessFile_coords (toNum : String → Option ℚ)
    (existing : List String) (fname : String) (content : List (List String))
    (out : List LocaOut × List String)
    (h : dlProcessFile toNum existing fname content = some out) :
    ∀ r ∈ out.1, r.nate.isSome ∧ r.natn.isSome := by
  simp only [dlProcessFile] at h
  by_cases h1 : ¬(((dl_parse_group content "LOCA").1).contains "LOCA_NATE" ∧
      ((dl_parse_group content "LOCA").1).contains "LOCA_NATN")
  · rw [if_pos h1] at h; cases h
  · rw [if_neg h1] at h
    by_cases h2 : ¬((dl_parse_group content "LOCA").1).contains "LOCA_ID"
    · rw [if_pos h2] at h; cases h
    · rw [if_neg h2] at h
      obtain rfl := (Option.some.inj h).symm
      intro r hr
      simp only [List.mem_map] at hr
      obtain ⟨row, hrow, rfl⟩ := hr
      have := List.of_mem_filter hrow
      simp only [Bool.and_eq_true] at this
      exact ⟨this.1, this.2⟩

/-- Invariant of the `load_all_loca_data` fold: rows with numeric
coordinates stay rows with numeric coordinates. -/
theorem dlFold_coords (toNum : String → Option ℚ)
    (files : List (String × List (List String))) :
    ∀ init : List LocaOut × List String,
    (∀ r ∈ init.1, r.nate.isSome ∧ r.natn.isSome) →
    ∀ res, files.foldl (dlFoldStep toNum) (some init) = some res →
    ∀ r ∈ res.1, r.nate.isSome ∧ r.natn.isSome := by
  induction files with
  | nil =>
    intro init hinit res hres
    obtain rfl := (Option.some.inj hres).symm
    exact hinit
  | cons f fs ih =>
    intro init hinit res hres
    simp only [List.foldl_cons] at hres
    cases hpf : dlProcessFile toNum init.2 f.1 f.2 with
    | none =>
      rw [show dlFoldStep toNum (some init) f = none by
        simp [dlFoldStep, hpf]] at hres
      rw [dlFold_none] at hres
      cases hres
    | some q =>
      rw [show dlFoldStep toNum (some init) f = some (init.1 ++ q.1, q.2) by
        simp [dlFoldStep, hpf]] at hres
      refine ih (init.1 ++ q.1, q.2) ?_ res hres
      intro r hr
      rcases List.mem_append.mp hr with hr1 | hr2
      · exact hinit r hr1
      · exact dlProcessFile_coords toNum init.2 f.1 f.2 q hpf r hr2

/-- C9: every row of the merged location table produced by
`load_all_loca_data` has numeric, non-null easting and northing — rows
whose easting or northing is missing or fails numeric coercion are dropped
per file before collision resolution and concatenation. -/
theorem claim_C9_merged_coords (toNum : String → Option ℚ)
    (files : List (String × List (List String))) (out : List LocaOut)
    (h : load_all_loca_data toNum files = some out) :
    ∀ r ∈ out, r.nate.isSome ∧ r.natn.isSome := by
  simp only [load_all_loca_data] at h
  by_cases hf : files.isEmpty
  · rw [if_pos hf] at h; cases h
  · rw [if_neg hf] at h
    cases hfold : files.foldl (dlFoldStep toNum)
        (some (([] : List LocaOut), ([] : List String))) with
    | none => rw [hfold] at h; cases h
    | some st =>
      rw [hfold] at h
      obtain rfl := (Option.some.inj h).symm
      exact dlFold_coords toNum files ([], []) (by simp) st hfold

/-- Witness for C9: one file with one numeric row and one row whose easting
fails coercion; the merged table keeps exactly the numeric row. -/
theorem claim_C9_merged_coords_witness :
    load_all_loca_data c1ToNum
      [("A.ags",
        [["GROUP", "LOCA"], ["HEADING", "LOCA_ID", "LOCA_NATE", "LOCA_NATN"],
         ["DATA", "BH1", "1", "2"], ["DATA", "BH2", "xx", "2"]])]
      = some [{ locaId := some "BH1", originalLocaId := some "BH1"
                nate := some 1, natn := some 2, agsFile := "A.ags" }] ∧
    (∀ r ∈ [({ locaId := some "BH1", originalLocaId := some "BH1"
               nate := some 1, natn := some 2, agsFile := "A.ags" } : LocaOut)],
      r.nate.isSome ∧ r.natn.isSome) :=
  ⟨by decide,
    claim_C9_merged_coords c1ToNum
      [("A.ags",
        [["GROUP", "LOCA"], ["HEADING", "LOCA_ID", "LOCA_NATE", "LOCA_NATN"],
         ["DATA", "BH1", "1", "2"], ["DATA", "BH2", "xx", "2"]])]
      [{ locaId := some "BH1", originalLocaId := some "BH1"
         nate := some 1, natn := some 2, agsFile := "A.ags" }]
      (by decide)⟩

/-! ## Embedding of the spatial selection (`map_utils.py` at the repo root
and `visualization/mapping/map_utils.py`)

Rows of the candidate table carry the `lat`/`lon` columns produced by
`transform_loca_df`.  The shapely / pyproj externals (polygon construction
and containment, LineString construction, UTM-projected corridor
containment) are the fields of a `GeomLib` parameter; construction
predicates returning `false` model a raised shapely exception.  A `none`
result of the root filter models an uncaught exception (the root
implementation has no try/except). -/

/-- One candidate row with geographic coordinates. -/
structure SelRow where
  locaId : String
  lat : ℚ
  lon : ℚ
deriving DecidableEq

/-- A user-drawn shape, keyed by its `geom["type"]` tag.  `rectangle` and
`polygon` carry the `coordinates` ring list; `circle` carries the center
`[lon, lat]` and radius as built by `setup_bh_circle_event_bridge`;
`other` stands for any unrecognized tag. -/
inductive Geom where
  | rectangle (rings : List (List (ℚ × ℚ)))
  | polygon (rings : List (List (ℚ × ℚ)))
  | lineString (coords : List (ℚ × ℚ))
  | circle (coords : List ℚ) (radius : ℚ)
  | other (tag : String)
deriving DecidableEq

/-- External geometry library calls (shapely / pyproj), as predicates:
whether construction of a Polygon / LineString from the coordinates
succeeds, polygon containment of a (lon, lat) point, and containment of
the projected point in the 50 m UTM-buffered corridor (the UTM transformer
chosen from the candidate medians is folded into the predicate). -/
structure GeomLib where
  polyOk : List (ℚ × ℚ) → Bool
  polyContains : List (ℚ × ℚ) → ℚ × ℚ → Bool
  lineOk : List (ℚ × ℚ) → Bool
  corridorContains : List (ℚ × ℚ) → ℚ × ℚ → Bool

/-- The inclusive bounding-box test of the Rectangle branch. -/
def inBBox (minLat maxLat minLon maxLon : ℚ) (r : SelRow) : Bool :=
  decide (minLat ≤ r.lat) && decide (r.lat ≤ maxLat) &&
  decide (minLon ≤ r.lon) && decide (r.lon ≤ maxLon)

/-- Embedding of the root `map_utils.filter_selection_by_shape`: no
try/except, so a `none` result models an exception escaping to the caller
(IndexError on an empty `coordinates` list, ValueError from `min()` on an
empty ring, shapely construction errors, `int()` of the NaN median of an
empty candidate table in the LineString branch). -/
def filter_selection_by_shape (lib : GeomLib) (geom : Option Geom)
    (df : List SelRow) : Option (List SelRow) :=
  match geom with
  | none => some []
  | some g =>
    match g with
    | .rectangle rings =>
      match rings.head? with
      | none => none
      | some [] => none
      | some coords =>
        let lons := coords.map Prod.fst
        let lats := coords.map Prod.snd
        some (df.filter
          (inBBox (pyMin lats) (pyMax lats) (pyMin lons) (pyMax lons)))
    | .polygon rings =>
      match rings.head? with
      | none => none
      | some coords =>
        if lib.polyOk coords then
          some (df.filter (fun r => lib.polyContains coords (r.lon, r.lat)))
        else none
    | .lineString coords =>
      if lib.lineOk coords then
        if df.isEmpty then none
        else some (df.filter (fun r => lib.corridorContains coords (r.lon, r.lat)))
      else none
    | .circle _ _ => some []
    | .other _ => some []

/-- Embedding of `visualization/mapping/map_utils._filter_by_rectangle`
(no `create_geometry` guard: an empty ring list or empty ring raises and
is caught by the caller's try/except). -/
def viz_filter_by_rectangle (rings : List (List (ℚ × ℚ)))
    (df : List SelRow) : Option (List SelRow) :=
  match rings.head? with
  | none => none
  | some [] => none
  | some coords =>
    let lons := coords.map Prod.fst
    let lats := coords.map Prod.snd
    some (df.filter
      (inBBox (pyMin lats) (pyMax lats) (pyMin lons) (pyMax lons)))

/-- Embedding of `create_geometry` for polygon rings: every construction
exception is caught inside and yields `None`. -/
def vizCreatePoly (lib : GeomLib) (rings : List (List (ℚ × ℚ))) :
    Option (List (ℚ × ℚ)) :=
  match rings.head? with
  | none => none
  | some coords => if lib.polyOk coords then some coords else none

/-- Embedding of `create_geometry` for LineString coordinates. -/
def vizCreateLine (lib : GeomLib) (coords : List (ℚ × ℚ)) :
    Option (List (ℚ × ℚ)) :=
  if lib.lineOk coords then some coords else none

/-- Tag check used for the PCA-line guard. -/
def isLineStringGeom : Geom → Bool
  | .lineString _ => true
  | _ => false

/-- Embedding of the visualization `filter_selection_by_shape`: early empty
result for a `None` shape or an empty candidate table, branch dispatch, a
PCA orientation line (external `sklearn` fit, parameter `pca`, itself
already exception-safe) for nonempty non-LineString selections, and an
outer try/except that turns any escaped exception into the empty
selection. -/
def viz_filter_selection_by_shape (lib : GeomLib)
    (pca : List (ℚ × ℚ) → Option (List ℚ × List ℚ))
    (geom : Option Geom) (df : List SelRow) :
    List SelRow × Option (List ℚ × List ℚ) :=
  let body : Option (List SelRow × Option (List ℚ × List ℚ)) :=
    match geom with
    | none => some ([], none)
    | some g =>
      if df.isEmpty then some ([], none)
      else
        let filtered : Option (List SelRow) :=
          match g with
          | .rectangle rings => viz_filter_by_rectangle rings df
          | .polygon rings =>
            match vizCreatePoly lib rings with
            | none => some []
            | some coords =>
              some (df.filter (fun r => lib.polyContains coords (r.lon, r.lat)))
          | .lineString coords =>
            match vizCreateLine lib coords with
            | none => some []
            | some cs =>
              some (df.filter (fun r => lib.corridorContains cs (r.lon, r.lat)))
          | _ => some []
        filtered.map (fun fd =>
          (fd, if fd.isEmpty then none
               else if isLineStringGeom g then none
               else pca (fd.map (fun r => (r.lat, r.lon)))))
  match body with
  | some res => res
  | none => ([], none)

/-- Squared distance in geographic-degree space used by the
click-to-select resolution (`np.sqrt` is monotone, so the argmin over the
squared distances is the argmin over the distances). -/
def sqDegDist (lat lon : ℚ) (r : SelRow) : ℚ :=
  (r.lat - lat) ^ 2 + (r.lon - lon) ^ 2

/-- The `idxmin` resolution: first row attaining the minimal distance to
the click point. -/
def closestRow (lat lon : ℚ) (x : SelRow) (xs : List SelRow) : SelRow :=
  xs.foldl
    (fun best r => if sqDegDist lat lon r < sqDegDist lat lon best then r
                   else best) x

/-- Embedding of the selection logic of `setup_bh_circle_event_bridge`
(`app.py`): build a tiny Circle shape of radius 0.5 m at the clicked
(lat, lon), filter the candidate table by it through the root
`filter_selection_by_shape`, and when more than one row is selected keep
only the row closest to the circle center in degree space. -/
def setup_bh_circle_select (lib : GeomLib) (lat lon : ℚ)
    (df : List SelRow) : Option (List SelRow) :=
  (filter_selection_by_shape lib (some (Geom.circle [lon, lat] (1/2))) df).map
    (fun selected =>
      if 1 < selected.length then
        match selected with
        | [] => []
        | x :: xs => [closestRow lat lon x xs]
      else selected)

/-! ### Claims C4, C5, C8 -/

/-- Geometry library instance for concrete evaluations: everything
constructs and everything contains. -/
def allTrueLib : GeomLib :=
  { polyOk := fun _ => true, polyContains := fun _ _ => true
    lineOk := fun _ => true, corridorContains := fun _ _ => true }

/-- Candidate row sitting exactly at the clicked point (51, -1). -/
def c4Row : SelRow := { locaId := "BH7", lat := 51, lon := -1 }

/-- C4: the click-to-select bridge builds a Circle shape, but no
`filter_selection_by_shape` implementation has a Circle branch, so the
shape falls through to the unrecognized-type default and the selection is
always empty — even for a candidate at distance 0 from the circle center,
well inside the 0.5 m radius.  The closest-row resolution (`closestRow`)
is unreachable.  This contradicts the claim and the code's own intent
("Filter selection by this tiny circle", "pick the closest one"). -/
theorem claim_C4_circle_dead_branch :
    setup_bh_circle_select allTrueLib 51 (-1) [c4Row] = some [] ∧
    filter_selection_by_shape allTrueLib
      (some (Geom.circle [(-1 : ℚ), 51] (1/2))) [c4Row] = some [] ∧
    sqDegDist 51 (-1) c4Row = 0 := by
  refine ⟨by decide, by decide, by norm_num [sqDegDist, c4Row]⟩

/-- C5 counterexample: a malformed Rectangle with an empty coordinates
list makes the root `filter_selection_by_shape` raise (IndexError on
`geom["coordinates"][0]`, modelled as `none`) instead of returning the
empty selection — the root implementation has no try/except. -/
theorem claim_C5_counterexample :
    filter_selection_by_shape allTrueLib (some (Geom.rectangle [])) [c4Row]
      = none := by
  decide

/-- C5 amended: the root filter returns the empty selection for a `None`
shape and for an unrecognized shape type (including the Circle shapes the
click bridge produces), but it can raise: on malformed geometry, and in
its LineString branch on an empty candidate table (whether or not the
LineString constructs, the branch ends in an exception there — a
construction error, or `int()` of the NaN median).  The visualization
implementation returns the empty selection for `None` shapes, empty
candidate tables, unrecognized shape types on any table, and malformed
geometry (outer try/except), never raising. -/
theorem claim_C5_selection_error_contract (lib : GeomLib)
    (pca : List (ℚ × ℚ) → Option (List ℚ × List ℚ))
    (df : List SelRow) (t : String) (cs : List ℚ) (rad : ℚ)
    (cs2 : List (ℚ × ℚ)) (geom : Option Geom) :
    (filter_selection_by_shape lib none df = some [])
    ∧ (filter_selection_by_shape lib (some (Geom.other t)) df = some [])
    ∧ (filter_selection_by_shape lib (some (Geom.circle cs rad)) df = some [])
    ∧ (filter_selection_by_shape lib (some (Geom.lineString cs2)) [] = none)
    ∧ (viz_filter_selection_by_shape lib pca none df = ([], none))
    ∧ (viz_filter_selection_by_shape lib pca geom [] = ([], none))
    ∧ (viz_filter_selection_by_shape lib pca (some (Geom.other t)) df
        = ([], none))
    ∧ (viz_filter_selection_by_shape lib pca (some (Geom.circle cs rad)) df
        = ([], none))
    ∧ (viz_filter_selection_by_shape lib pca (some (Geom.rectangle [])) df
        = ([], none))
    ∧ (viz_filter_selection_by_shape lib pca (some (Geom.rectangle [[]])) df
        = ([], none)) := by
  refine ⟨rfl, rfl, rfl, ?_, rfl, ?_, ?_, ?_, ?_, ?_⟩
  · cases h : lib.lineOk cs2 <;> simp [filter_selection_by_shape, h]
  · cases geom with
    | none => rfl
    | some g => rfl
  · cases df with
    | nil => rfl
    | cons a l => rfl
  · cases df with
    | nil => rfl
    | cons a l => rfl
  · cases df with
    | nil => rfl
    | cons a l => rfl
  · cases df with
    | nil => rfl
    | cons a l => rfl

/-- C8: both Rectangle implementations treat the first coordinate ring as
an axis-aligned bounding box over all ring vertices and select exactly the
rows whose lat and lon lie inside the respective ranges, inclusively at
both ends: a row exactly at a bound (for example a bounding-box corner) is
included, and a row beyond any one bound fails that conjunct and is
excluded. -/
theorem claim_C8_rectangle_inclusive (lib : GeomLib) (p0 : ℚ × ℚ)
    (ringRest : List (ℚ × ℚ)) (ringsRest : List (List (ℚ × ℚ)))
    (df : List SelRow) :
    (filter_selection_by_shape lib
        (some (Geom.rectangle ((p0 :: ringRest) :: ringsRest))) df
      = some (df.filter
          (inBBox (pyMin ((p0 :: ringRest).map Prod.snd))
            (pyMax ((p0 :: ringRest).map Prod.snd))
            (pyMin ((p0 :: ringRest).map Prod.fst))
            (pyMax ((p0 :: ringRest).map Prod.fst)))))
    ∧ (viz_filter_by_rectangle ((p0 :: ringRest) :: ringsRest) df
      = some (df.filter
          (inBBox (pyMin ((p0 :: ringRest).map Prod.snd))
            (pyMax ((p0 :: ringRest).map Prod.snd))
            (pyMin ((p0 :: ringRest).map Prod.fst))
            (pyMax ((p0 :: ringRest).map Prod.fst)))))
    ∧ (∀ r : SelRow,
        r ∈ df.filter
          (inBBox (pyMin ((p0 :: ringRest).map Prod.snd))
            (pyMax ((p0 :: ringRest).map Prod.snd))
            (pyMin ((p0 :: ringRest).map Prod.fst))
            (pyMax ((p0 :: ringRest).map Prod.fst))) ↔
        r ∈ df ∧
          pyMin ((p0 :: ringRest).map Prod.snd) ≤ r.lat ∧
          r.lat ≤ pyMax ((p0 :: ringRest).map Prod.snd) ∧
          pyMin ((p0 :: ringRest).map Prod.fst) ≤ r.lon ∧
          r.lon ≤ pyMax ((p0 :: ringRest).map Prod.fst)) := by
  refine ⟨rfl, rfl, ?_⟩
  intro r
  simp [List.mem_filter, inBBox, Bool.and_eq_true, decide_eq_true_eq,
    and_assoc]

/-! ## Embedding of the section-axis projection of
`section_plot.py plot_borehole_sections`

The relevant fragment computes, per borehole, its position along the
section axis.  `borehole_x = merged.groupby("LOCA_ID")["LOCA_NATE"]
.first().sort_values()` takes the first coordinates of each identifier
(group keys sorted ascending) and orders boreholes by Easting; positions
are then assigned against that order.  `np.hypot`, whose exact value
leaves ℚ, is passed in as the precomputed `lineLen` (characterized where
needed by `lineLen ≥ 0` and `lineLen² = dx² + dy²`; `np.hypot(0, 0) = 0`
exactly, so equal endpoints give `lineLen = 0`).  The multi-point polyline
branch (shapely `line.project`) is external and not modelled. -/

/-- Codepoint-lexicographic comparison of character lists, as Python
compares strings. -/
def charListLe : List Char → List Char → Bool
  | [], _ => true
  | _ :: _, [] => false
  | a :: as, b :: bs =>
    if a.toNat < b.toNat then true
    else if b.toNat < a.toNat then false
    else charListLe as bs

/-- Python string `<=` (codepoint lexicographic). -/
def strLe (a b : String) : Bool := charListLe a.toList b.toList

/-- `groupby("LOCA_ID").first()` over (id, easting, northing) rows in file
order: unique identifiers in ascending order, each with its first
occurrence's coordinates. -/
def groupFirstLoca (rows : List (String × ℚ × ℚ)) :
    List (String × ℚ × ℚ) :=
  let sortedIds := List.insertionSort (fun a b => strLe a b = true)
    (rows.map Prod.fst).dedup
  sortedIds.filterMap (fun i =>
    (rows.find? (fun p => p.1 == i)).map (fun p => (i, p.2)))

/-- `.sort_values()`: boreholes ordered by Easting ascending. -/
def sortedBoreholes (rows : List (String × ℚ × ℚ)) :
    List (String × ℚ × ℚ) :=
  List.insertionSort (fun a b => a.2.1 ≤ b.2.1) (groupFirstLoca rows)

/-- The per-borehole section positions (`bh_x_map`): for a 2-point section
line, scalar projections onto the line when it has nonzero length,
otherwise — and also when no line is given — Easting offsets from the
first borehole of the Easting-sorted order. -/
def sectionRelX (lineLen : ℚ) (sl : Option ((ℚ × ℚ) × (ℚ × ℚ)))
    (rows : List (String × ℚ × ℚ)) : List (String × ℚ) :=
  let bhs := sortedBoreholes rows
  match sl with
  | some ((x0, y0), (x1, y1)) =>
    let dx := x1 - x0
    let dy := y1 - y0
    if lineLen = 0 then
      bhs.map (fun b => (b.1, b.2.1 - (bhs.headD ("", 0, 0)).2.1))
    else
      bhs.map (fun b =>
        (b.1, ((b.2.1 - x0) * dx + (b.2.2 - y0) * dy) / lineLen))
  | none => bhs.map (fun b => (b.1, b.2.1 - (bhs.headD ("", 0, 0)).2.1))

/-- Position assigned to one borehole identifier. -/
def lookupRelX (xs : List (String × ℚ)) (i : String) : Option ℚ :=
  (xs.find? (fun p => p.1 == i)).map Prod.snd

/-- C7 counterexample: two boreholes uploaded in the order B2 (Easting
100), B1 (Easting 50), with a degenerate zero-length section line.  The
code assigns offsets from the smallest Easting after sorting — B1 ↦ 0,
B2 ↦ 50 — while the claim's "Easting offset from the first borehole in
upload order" (B2, Easting 100) would assign B2 ↦ 100 − 100 = 0. -/
theorem claim_C7_counterexample :
    sectionRelX 0 (some ((5, 5), (5, 5))) [("B2", 100, 0), ("B1", 50, 0)]
      = [("B1", 0), ("B2", 50)] ∧
    lookupRelX [("B1", 0), ("B2", 50)] "B2" = some 50 ∧
    (50 : ℚ) ≠ 100 - 100 := by
  have hsb : sortedBoreholes [("B2", 100, 0), ("B1", 50, 0)]
      = [("B1", 50, 0), ("B2", 100, 0)] := by decide
  refine ⟨?_, by decide, by norm_num⟩
  simp only [sectionRelX, hsb]
  norm_num

/-- C7 amended: with `lineLen` the Euclidean length of the 2-point section
line, a zero value occurs exactly for coinciding endpoints; for distinct
endpoints every borehole's position is the scalar projection
`((x−x0)·dx + (y−y0)·dy) / lineLen`; for a degenerate line the positions
fall back to Easting offsets from the borehole with the smallest Easting
(the first of the Easting-sorted order), not from the first borehole in
upload order. -/
theorem claim_C7_projection (lineLen x0 y0 x1 y1 : ℚ)
    (rows : List (String × ℚ × ℚ)) :
    (lineLen ^ 2 = (x1 - x0) ^ 2 + (y1 - y0) ^ 2 →
      (lineLen = 0 ↔ (x0, y0) = (x1, y1)))
    ∧ (lineLen ≠ 0 →
      sectionRelX lineLen (some ((x0, y0), (x1, y1))) rows =
        (sortedBoreholes rows).map (fun b =>
          (b.1, ((b.2.1 - x0) * (x1 - x0) + (b.2.2 - y0) * (y1 - y0)) /
            lineLen)))
    ∧ (lineLen = 0 →
      sectionRelX lineLen (some ((x0, y0), (x1, y1))) rows =
        (sortedBoreholes rows).map (fun b =>
          (b.1, b.2.1 - ((sortedBoreholes rows).headD ("", 0, 0)).2.1)))
    ∧ (∀ b ∈ sortedBoreholes rows,
        ((sortedBoreholes rows).headD ("", 0, 0)).2.1 ≤ b.2.1) := by
  refine ⟨?_, ?_, ?_, ?_⟩
  · intro hchar
    constructor
    · intro h0
      rw [h0] at hchar
      have hdx : x1 - x0 = 0 := by
        nlinarith [sq_nonneg (x1 - x0), sq_nonneg (y1 - y0)]
      have hdy : y1 - y0 = 0 := by
        nlinarith [sq_nonneg (x1 - x0), sq_nonneg (y1 - y0)]
      simp only [Prod.mk.injEq]
      constructor <;> linarith
    · intro heq
      simp only [Prod.mk.injEq] at heq
      have : lineLen ^ 2 = 0 := by
        rw [hchar, heq.1, heq.2]
        ring
      exact pow_eq_zero_iff (two_ne_zero) |>.mp this
  · intro h
    simp only [sectionRelX]
    rw [if_neg h]
  · intro h
    simp only [sectionRelX]
    rw [if_pos h]
  · haveI htot : IsTotal (String × ℚ × ℚ) (fun a b => a.2.1 ≤ b.2.1) :=
      ⟨fun a b => le_total a.2.1 b.2.1⟩
    haveI htrans : IsTrans (String × ℚ × ℚ) (fun a b => a.2.1 ≤ b.2.1) :=
      ⟨fun _ _ _ hab hbc => le_trans hab hbc⟩
    have hsorted := List.sorted_insertionSort
      (fun (a b : String × ℚ × ℚ) => a.2.1 ≤ b.2.1) (groupFirstLoca rows)
    intro b hb
    unfold sortedBoreholes at hb ⊢
    cases hs : List.insertionSort (fun (a b : String × ℚ × ℚ) => a.2.1 ≤ b.2.1)
        (groupFirstLoca rows) with
    | nil => rw [hs] at hb; cases hb
    | cons a t =>
      rw [hs] at hb hsorted
      simp only [List.headD_cons]
      rcases List.mem_cons.mp hb with rfl | hbt
      · exact le_refl _
      · exact List.rel_of_sorted_cons hsorted b hbt

/-- Witness for the amended C7 theorem: a 3-4-5 section line, positions
are exact scalar projections. -/
theorem claim_C7_projection_witness :
    (5 : ℚ) ≠ 0 ∧
    sectionRelX 5 (some ((0, 0), (3, 4))) [("P", 3, 4), ("Q", 0, 0)]
      = [("Q", 0), ("P", 5)] := by
  refine ⟨by norm_num, ?_⟩
  have h := (claim_C7_projection 5 0 0 3 4 [("P", 3, 4), ("Q", 0, 0)]).2.1
    (by norm_num)
  rw [h]
  have hsb : sortedBoreholes [("P", 3, 4), ("Q", 0, 0)]
      = [("Q", 0, 0), ("P", 3, 4)] := by decide
  rw [hsb]
  norm_num

/-! ## Embedding of `utils/coordinates.py`

The pyproj transformers are function parameters (`transform` for
OSGB36→WGS84, `transformInv` for the inverse), both in pyproj's
`always_xy` convention: applied to (easting, northing) they return
(lon, lat), and applied to (lon, lat) they return (easting, northing).
Inputs of `osgb36_to_latlon` may be `None` or fail `float()` coercion;
`PyVal` distinguishes the three cases. -/

/-- A Python value passed as a coordinate: `None`, something `float()`
accepts (with its numeric value), or something `float()` rejects. -/
inductive PyVal where
  | pyNone
  | numeric (q : ℚ)
  | nonNumeric (s : String)
deriving DecidableEq

/-- Python `float(v)` as a partial function. -/
def pyFloat : PyVal → Option ℚ
  | .numeric q => some q
  | _ => none

/-- The UK bounds constants of `utils/coordinates.py`. -/
def UK_MIN_EASTING : ℚ := 0
/-- Maximum easting in Great Britain. -/
def UK_MAX_EASTING : ℚ := 700000
/-- Minimum northing. -/
def UK_MIN_NORTHING : ℚ := 0
/-- Maximum northing in Great Britain. -/
def UK_MAX_NORTHING : ℚ := 1300000

/-- Embedding of `validate_coordinates`: `False` for `None` or
non-coercible input, then the range check with the 10 km tolerance
(the second pass only logs warnings and never changes the result). -/
def validate_coordinates (e n : PyVal) : Bool :=
  match e, n with
  | .pyNone, _ => false
  | _, .pyNone => false
  | _, _ =>
    match pyFloat e, pyFloat n with
    | some qe, some qn =>
      decide (UK_MIN_EASTING - 10000 ≤ qe ∧ qe ≤ UK_MAX_EASTING + 10000 ∧
        UK_MIN_NORTHING - 10000 ≤ qn ∧ qn ≤ UK_MAX_NORTHING + 10000)
    | _, _ => false

/-- Embedding of `osgb36_to_latlon`: raise ValueError when validation
fails, otherwise call the external transformer on the unmodified inputs
and swap its (lon, lat) to (lat, lon).  The second match arm is
unreachable (validation implies both inputs are numeric). -/
def osgb36_to_latlon (transform : ℚ → ℚ → ℚ × ℚ) (e n : PyVal) :
    Except String (ℚ × ℚ) :=
  if validate_coordinates e n then
    match e, n with
    | .numeric qe, .numeric qn =>
      .ok ((transform qe qn).2, (transform qe qn).1)
    | _, _ => .error "Invalid UK coordinates"
  else .error "Invalid UK coordinates"

/-- Embedding of `latlon_to_osgb36`: convert with the external inverse
transformer, then raise ValueError when the converted easting/northing
fails the same UK-bounds validation. -/
def latlon_to_osgb36 (transformInv : ℚ → ℚ → ℚ × ℚ) (lat lon : ℚ) :
    Except String (ℚ × ℚ) :=
  let p := transformInv lon lat
  if validate_coordinates (.numeric p.1) (.numeric p.2) then .ok p
  else .error "Converted coordinates outside UK bounds"

/-- C10: `osgb36_to_latlon` succeeds exactly on numeric inputs with easting
in [-10000, 710000] and northing in [-10000, 1310000] (the documented
bounds extended by the 10 km tolerance) and raises ValueError otherwise
(including `None` and non-numeric input); in-bounds inputs are passed to
the external transformer unmodified; and `latlon_to_osgb36` succeeds
exactly when the converted easting/northing lies inside those same
bounds. -/
theorem claim_C10_bounds_validation (transform transformInv : ℚ → ℚ → ℚ × ℚ)
    (e n : PyVal) (lat lon qe qn : ℚ) :
    ((∃ p, osgb36_to_latlon transform e n = .ok p) ↔
      (∃ a b, e = .numeric a ∧ n = .numeric b ∧
        -10000 ≤ a ∧ a ≤ 710000 ∧ -10000 ≤ b ∧ b ≤ 1310000))
    ∧ (-10000 ≤ qe → qe ≤ 710000 → -10000 ≤ qn → qn ≤ 1310000 →
        osgb36_to_latlon transform (.numeric qe) (.numeric qn) =
          .ok ((transform qe qn).2, (transform qe qn).1))
    ∧ ((∃ p, latlon_to_osgb36 transformInv lat lon = .ok p) ↔
        (-10000 ≤ (transformInv lon lat).1 ∧
          (transformInv lon lat).1 ≤ 710000 ∧
          -10000 ≤ (transformInv lon lat).2 ∧
          (transformInv lon lat).2 ≤ 1310000)) := by
  have hbounds : ∀ a b : ℚ,
      validate_coordinates (.numeric a) (.numeric b) = true ↔
      (-10000 ≤ a ∧ a ≤ 710000 ∧ -10000 ≤ b ∧ b ≤ 1310000) := by
    intro a b
    simp only [validate_coordinates, pyFloat, UK_MIN_EASTING, UK_MAX_EASTING,
      UK_MIN_NORTHING, UK_MAX_NORTHING, decide_eq_true_eq]
    norm_num
  refine ⟨?_, ?_, ?_⟩
  · constructor
    · rintro ⟨p, hp⟩
      simp only [osgb36_to_latlon] at hp
      by_cases hv : validate_coordinates e n = true
      · rw [if_pos hv] at hp
        cases e with
        | pyNone => simp [validate_coordinates] at hv
        | nonNumeric s =>
          cases n <;> simp [validate_coordinates, pyFloat] at hv
        | numeric a =>
          cases n with
          | pyNone => simp [validate_coordinates] at hv
          | nonNumeric s => simp [validate_coordinates, pyFloat] at hv
          | numeric b => exact ⟨a, b, rfl, rfl, (hbounds a b).mp hv⟩
      · rw [if_neg hv] at hp
        cases hp
    · rintro ⟨a, b, rfl, rfl, hb⟩
      refine ⟨((transform a b).2, (transform a b).1), ?_⟩
      simp only [osgb36_to_latlon]
      rw [if_pos ((hbounds a b).mpr hb)]
  · intro h1 h2 h3 h4
    simp only [osgb36_to_latlon]
    rw [if_pos ((hbounds qe qn).mpr ⟨h1, h2, h3, h4⟩)]
  · simp only [latlon_to_osgb36]
    by_cases hv : validate_coordinates (.numeric (transformInv lon lat).1)
        (.numeric (transformInv lon lat).2) = true
    · rw [if_pos hv]
      simp only [Except.ok.injEq, exists_eq']
      exact iff_of_true trivial
        ((hbounds (transformInv lon lat).1 (transformInv lon lat).2).mp hv)
    · rw [if_neg hv]
      rw [hbounds (transformInv lon lat).1 (transformInv lon lat).2] at hv
      constructor
      · rintro ⟨p, hp⟩; cases hp
      · intro hb; exact absurd hb hv

/-- Witness for C10 at an in-bounds easting/northing with a concrete
swap transformer. -/
theorem claim_C10_bounds_validation_witness :
    (-10000 : ℚ) ≤ 400000 ∧
    osgb36_to_latlon (fun a b => (b, a)) (.numeric 400000) (.numeric 100000)
      = .ok (400000, 100000) := by
  refine ⟨by norm_num, ?_⟩
  have h := (claim_C10_bounds_validation (fun a b => (b, a))
    (fun a b => (a, b)) (.numeric 400000) (.numeric 100000) 0 0
    400000 100000).2.1 (by norm_num) (by norm_num) (by norm_num) (by norm_num)
  exact h.trans rfl

end BoreholeSections
